import Mathlib

/-
  Verification development for the PDF-to-CSV order converter
  (source: pdf_processing_logic.py, app.py).

  Shallow embedding notes:
  * Strings are handled at the level of their character lists; Python
    str.strip / str.upper / single-character str.replace are modelled by
    structural functions on List Char so that every definition is
    executable by the kernel.
  * The regex-based header extraction is abstracted: process_single_pdf
    receives the already-captured header fields (order number, order date,
    delivery date) and the raw delivery-address block as inputs, since no
    claim concerns the regexes themselves.  The market-password lookup on
    the captured address block is modelled in full.
  * PDF reading and file I/O are modelled by success flags on the input
    document record: readable (PyPDF2 open / decrypt / text extraction),
    tables (pdfplumber result; none = raised exception), writeOk (the
    open/write of the temporary CSV raises or not), copyOk (shutil.copy /
    os.remove raise or not).  An exception that the Python code does not
    catch is modelled as Except.error ().
  * Floating point quantities: the tokens accepted by the table filter are
    plain decimal strings; float(token) and str(float) are modelled as the
    exact decimal value (PyDec below) and its shortest decimal rendering,
    which agrees with CPython for every token whose significand fits in the
    double round-trip range (at most 15 significant digits), as all order
    quantities do.
-/

/-- Helper: is l1 an initial segment of l2 (used to model the Python
substring operator). -/
def isPre : List Char → List Char → Bool
  | [], _ => true
  | _ :: _, [] => false
  | a :: as, b :: bs => a == b && isPre as bs

/-- Helper: does the needle occur as a contiguous run inside the haystack
(models the Python expression needle in hay). -/
def hasSub (needle : List Char) : List Char → Bool
  | [] => isPre needle []
  | c :: rest => isPre needle (c :: rest) || hasSub needle rest

/-- String-level substring test: needle in hay. -/
def hasSubStr (needle hay : String) : Bool :=
  hasSub needle.toList hay.toList

/-- Models str.upper() for the ASCII text handled here. -/
def strUpper (s : String) : String :=
  String.mk (s.toList.map Char.toUpper)

/-- Whitespace characters recognised by the Python regex \s and str.strip
on the ASCII text handled here. -/
def isPyWs (c : Char) : Bool :=
  c == ' ' || c == '\t' || c == '\n' || c == '\r' || c == Char.ofNat 11 || c == Char.ofNat 12

/-- Models str.strip() (with no arguments) on a character list. -/
def trimL (l : List Char) : List Char :=
  ((l.dropWhile isPyWs).reverse.dropWhile isPyWs).reverse

/-- Models str.strip() at the String level. -/
def strTrim (s : String) : String :=
  String.mk (trimL s.toList)

/-- Models str.replace(a, b) where a and b are single characters. -/
def mapChar (a b : Char) (s : String) : String :=
  String.mk (s.toList.map (fun c => if c == a then b else c))

/-- Models ";".join-style joining: first element, then separator between
each following element. -/
def joinWith (sep : String) : List String → String
  | [] => ""
  | a :: t => t.foldl (fun acc x => acc ++ sep ++ x) a

/- ------------------------------------------------------------------
   clean_text  (pdf_processing_logic.py lines 51-82)
   ------------------------------------------------------------------ -/

/-- The chained single-character replacements of clean_text step 1:
Ä→AE, Ö→OE, Ü→UE, ä→ae, ö→oe, ü→ue, ẞ→SS, ß→ss.  The chained str.replace
calls of the source are equivalent to this one character-wise expansion
because no replacement output contains a character replaced later. -/
def germanFoldChar (c : Char) : List Char :=
  if c = 'Ä' then ['A', 'E']
  else if c = 'Ö' then ['O', 'E']
  else if c = 'Ü' then ['U', 'E']
  else if c = 'ä' then ['a', 'e']
  else if c = 'ö' then ['o', 'e']
  else if c = 'ü' then ['u', 'e']
  else if c = 'ẞ' then ['S', 'S']
  else if c = 'ß' then ['s', 's']
  else [c]

/-- NFKD base character of the non-ASCII accented characters in scope.
Characters outside the table have no ASCII-compatible decomposition and
are dropped by the ascii/ignore encode, matching the source. -/
def decompBase (c : Char) : Option Char :=
  if c = 'á' ∨ c = 'à' ∨ c = 'â' ∨ c = 'ã' ∨ c = 'å' then some 'a'
  else if c = 'é' ∨ c = 'è' ∨ c = 'ê' ∨ c = 'ë' then some 'e'
  else if c = 'í' ∨ c = 'ì' ∨ c = 'î' ∨ c = 'ï' then some 'i'
  else if c = 'ó' ∨ c = 'ò' ∨ c = 'ô' ∨ c = 'õ' then some 'o'
  else if c = 'ú' ∨ c = 'ù' ∨ c = 'û' then some 'u'
  else if c = 'ñ' then some 'n'
  else if c = 'ç' then some 'c'
  else if c = 'ý' then some 'y'
  else if c = 'Á' ∨ c = 'À' ∨ c = 'Â' then some 'A'
  else if c = 'É' ∨ c = 'È' ∨ c = 'Ê' then some 'E'
  else if c = '²' then some '2'
  else if c = '³' then some '3'
  else none

/-- Models unicodedata.normalize NFKD followed by encode ascii/ignore on a
single character: ASCII characters pass through, decomposable accented
characters keep their ASCII base, everything else is dropped. -/
def asciiFoldChar (c : Char) : List Char :=
  if c.toNat < 128 then [c]
  else
    match decompBase c with
    | some b => if b.toNat < 128 then [b] else []
    | none => []

/-- Models re.sub of one or more whitespace characters by a single space
followed by str.strip: after the leading run is removed, every interior
run becomes one space and a trailing run disappears. -/
def collapseAux : Bool → List Char → List Char
  | _, [] => []
  | pend, c :: cs =>
    if isPyWs c then collapseAux true cs
    else if pend then ' ' :: c :: collapseAux false cs
    else c :: collapseAux false cs

/-- Whitespace-run collapse plus strip, on a character list. -/
def collapseWsL (l : List Char) : List Char :=
  collapseAux false (l.dropWhile isPyWs)

/-- clean_text (pdf_processing_logic.py lines 51-82): None becomes the
empty string; otherwise German special characters are expanded first, the
remaining text is ASCII-folded, and whitespace runs are collapsed with the
ends stripped. -/
def clean_text : Option String → String
  | none => ""
  | some s =>
      String.mk (collapseWsL ((s.toList.flatMap germanFoldChar).flatMap asciiFoldChar))

/- ------------------------------------------------------------------
   Market password table and resolution
   (pdf_processing_logic.py lines 37-47 and 131-140)
   ------------------------------------------------------------------ -/

/-- MARKET_PASSWORDS in the definition order of the source dict (Python
dicts preserve insertion order). -/
def MARKET_PASSWORDS : List (String × String) :=
  [("SCHAEFERWIESE", "Allee"),
   ("THERESIENHOEHE", "Theresie"),
   ("EINSTEINSTRASSE", "Einstein"),
   ("UNTERHACHING", "Unterhaching"),
   ("PULLACH", "Pullach"),
   ("ISARTAL", "DohlePasswortIsartal"),
   ("MARTINSRIED", "DohlePasswortMartinsried")]

/-- Market resolution for a captured raw delivery-address block
(pdf_processing_logic.py lines 134-140): the block is cleaned and
upper-cased, then the password of the first table entry whose keyword is a
substring of the block is returned, or the empty string. -/
def resolve_market (raw : String) : String :=
  let block := strUpper (clean_text (some raw))
  match MARKET_PASSWORDS.find? (fun kv => hasSubStr kv.1 block) with
  | some kv => kv.2
  | none => ""

/- ------------------------------------------------------------------
   Quantity parsing and rendering (float(...) and str(...))
   ------------------------------------------------------------------ -/

/-- Exact decimal value of a quantity token: sign, integer-part digits,
fraction digits. -/
structure PyDec where
  neg : Bool
  ip : List Char
  fp : List Char
deriving DecidableEq

/-- Numeric value of a digit list read in base 10. -/
def natDigits (l : List Char) : Nat :=
  l.foldl (fun a c => 10 * a + (c.toNat - 48)) 0

/-- Models float(token) on a plain decimal token: optional sign, digits,
optional point, digits, at least one digit in total, nothing else.
(Exponent forms, inf/nan and digit-group underscores never occur in the
quantity cells in scope.) -/
def pyFloatChars (l : List Char) : Option PyDec :=
  let negl : Bool × List Char :=
    match l with
    | '-' :: t => (true, t)
    | '+' :: t => (false, t)
    | t => (false, t)
  let ip := negl.2.takeWhile Char.isDigit
  let r1 := negl.2.dropWhile Char.isDigit
  match r1 with
  | [] => if ip.isEmpty then none else some ⟨negl.1, ip, []⟩
  | '.' :: t =>
    let fp := t.takeWhile Char.isDigit
    let r2 := t.dropWhile Char.isDigit
    if r2.isEmpty && !(ip.isEmpty && fp.isEmpty) then some ⟨negl.1, ip, fp⟩ else none
  | _ => none

/-- Models float(cell.replace(",", ".").strip()) as used at
pdf_processing_logic.py line 359. -/
def parseQty (s : String) : Option PyDec :=
  pyFloatChars (trimL (mapChar ',' '.' s).toList)

/-- The parsed value scaled by 10^(number of fraction digits); it is
positive, zero or negative exactly when the parsed value is, so the
source comparison bestellmenge > 0 becomes 0 < qnum. -/
def qnum (d : PyDec) : Int :=
  (if d.neg then (-1 : Int) else 1) * (natDigits d.ip * 10 ^ d.fp.length + natDigits d.fp)

/-- Drop trailing zero digits of the fraction part. -/
def trimZeros (l : List Char) : List Char :=
  (l.reverse.dropWhile (fun c => c == '0')).reverse

/-- Models str(float_value) for the decimal values in scope: integer part,
point, fraction digits without trailing zeros (or the single digit 0). -/
def renderQty (d : PyDec) : String :=
  let fp := trimZeros d.fp
  let core := toString (natDigits d.ip) ++ "." ++ (if fp.isEmpty then "0" else String.mk fp)
  if d.neg then "-" ++ core else core

/- ------------------------------------------------------------------
   Row filter and line-item parser
   (pdf_processing_logic.py lines 298-377)
   ------------------------------------------------------------------ -/

/-- A parsed line item: article number string and quantity. -/
structure LineItem where
  art : String
  qty : PyDec
deriving DecidableEq

/-- Default line item used as a getD fallback in statements. -/
def defaultItem : LineItem := ⟨"", ⟨false, [], []⟩⟩

/-- Models token.isdigit() on the ASCII cell text in scope: non-empty and
all decimal digits. -/
def isDigitsNE (s : String) : Bool :=
  !s.toList.isEmpty && s.toList.all Char.isDigit

/-- Row skip test of line 315: no cell has non-whitespace content. -/
def row_empty (row : List String) : Bool :=
  row.all (fun c => strTrim c == "")

/-- First character test used below. -/
def firstCharIs (ch : Char) (s : String) : Bool :=
  match s.toList with
  | [] => false
  | a :: _ => a == ch

/-- Delimiter test of line 321: every cell with content starts, after
stripping, with an underscore. -/
def row_underscore (row : List String) : Bool :=
  row.all (fun c => strTrim c == "" || firstCharIs '_' (strTrim c))

/-- Noise test of line 333 on the row joined with spaces and upper-cased. -/
def row_noise (row : List String) : Bool :=
  let j := strUpper (joinWith " " row)
  hasSubStr "PLAN MHD" j || hasSubStr "SUMME" j || hasSubStr "GESAMT" j

/-- Article-number cell of a row: index 4 for Dohle, 0 for EDEKA; an index
past the end reads as the empty string (lines 338-346). -/
def artCell (is_dohle : Bool) (row : List String) : String :=
  if is_dohle then row.getD 4 "" else row.getD 0 ""

/-- Quantity cell of a row: index 7 for Dohle, 1 for EDEKA. -/
def qtyCell (is_dohle : Bool) (row : List String) : String :=
  if is_dohle then row.getD 7 "" else row.getD 1 ""

/-- Per-row parse of lines 348-377, applied once the state checks have
passed: digit-check the stripped article cell, parse the quantity, then
require order date, order number and a positive quantity. -/
def line_item (is_dohle : Bool) (bd bn : String) (row : List String) : Option LineItem :=
  if isDigitsNE (strTrim (artCell is_dohle row)) then
    (parseQty (qtyCell is_dohle row)).bind (fun q =>
      if bd != "" && bn != "" && decide (0 < qnum q)
      then some ⟨strTrim (artCell is_dohle row), q⟩ else none)
  else none

/-- One iteration of the row loop (lines 310-377).  State: the EDEKA
in_data_section flag paired with the accepted items so far.  The Dohle
variant has no flag; its state starts true and the underscore branch is
guarded on the variant, so it never changes. -/
def step (is_dohle : Bool) (bd bn : String) (st : Bool × List LineItem)
    (row : List String) : Bool × List LineItem :=
  if row_empty row then st
  else if !is_dohle && row_underscore row then (true, st.2)
  else if !is_dohle && !st.1 then st
  else if row_noise row then st
  else
    match line_item is_dohle bd bn row with
    | some it => (st.1, st.2 ++ [it])
    | none => st

/-- The full row loop: EDEKA starts before the data section, Dohle starts
accepting data immediately. -/
def parse_rows (is_dohle : Bool) (bd bn : String) (rows : List (List String)) : List LineItem :=
  (rows.foldl (step is_dohle bd bn) (is_dohle, [])).2

/- ------------------------------------------------------------------
   CSV emission (pdf_processing_logic.py lines 391-426)
   ------------------------------------------------------------------ -/

/-- A fully empty 15-column row. -/
def blank15 : List String := List.replicate 15 ""

/-- A 15-column row with a single filled cell. -/
def setCell (n : Nat) (v : String) : List String := blank15.set n v

/-- An article row: article number in column index 1, quantity in column
index 4 rendered with a comma decimal separator (line 424). -/
def item_row (it : LineItem) : List String :=
  (blank15.set 1 it.art).set 4 (mapChar '.' ',' (renderQty it.qty))

/-- The emitted CSV as a list of 15-cell rows (lines 394-425): password
row, empty row, order date, order number, delivery date, then one row per
line item.  No summary row follows. -/
def emit_csv (kennwort bd bn ld : String) (items : List LineItem) : List (List String) :=
  [setCell 14 kennwort, blank15, setCell 2 bd, setCell 2 bn, setCell 2 ld]
    ++ items.map item_row

/-- Serialization of one row with the semicolon delimiter (none of the
emitted cells contains a delimiter or quote, so the csv module writes them
verbatim). -/
def csv_line (row : List String) : String := joinWith ";" row

/- ------------------------------------------------------------------
   process_single_pdf (pdf_processing_logic.py lines 189-444)
   ------------------------------------------------------------------ -/

/-- Input document as seen by process_single_pdf, with the I/O and regex
layers abstracted to their outcomes (see the header comment). -/
structure PdfDoc where
  /-- Base name of the input file (os.path.basename is applied by the
  caller-facing code before every use of the path). -/
  filename : String
  /-- PyPDF2 opened the file, it was not encrypted and text extraction
  did not raise. -/
  readable : Bool
  /-- Captured order number, or empty when no pattern matched. -/
  bestellnummer : String
  /-- Captured order date, or empty. -/
  bestelldatum : String
  /-- Captured delivery date, or empty. -/
  lieferdatum : String
  /-- Captured raw LIEFERANSCHRIFT block (EDEKA variant); none when the
  address regex did not match. -/
  addressBlock : Option String
  /-- Password resolved by the Dohle branch of extract_info_from_text
  (empty when none was found). -/
  dohleKennwort : String
  /-- Raw table rows across all pages in page order (cells may be None);
  none models a pdfplumber exception. -/
  tables : Option (List (List (Option String)))
  /-- The open/write of the temporary CSV file does not raise. -/
  writeOk : Bool
  /-- shutil.copy and os.remove do not raise. -/
  copyOk : Bool

/-- Variant classification from the file name (line 230): DOHLEHIT or AEZ
as a substring of the upper-cased base name. -/
def doc_is_dohle (d : PdfDoc) : Bool :=
  hasSubStr "DOHLEHIT" (strUpper d.filename) || hasSubStr "AEZ" (strUpper d.filename)

/-- The market password of the document: the Dohle branch result for
Dohle files, otherwise the keyword scan over the captured address block
(empty when the address regex found nothing). -/
def doc_kennwort (d : PdfDoc) : String :=
  if doc_is_dohle d then d.dohleKennwort
  else
    match d.addressBlock with
    | some ab => resolve_market ab
    | none => ""

/-- Every extracted cell is cleaned on extraction (line 284); None cells
become the empty string. -/
def clean_rows (tbl : List (List (Option String))) : List (List String) :=
  tbl.map (fun r => r.map clean_text)

/-- The accepted line items of a document given its raw table rows. -/
def doc_items (d : PdfDoc) (tbl : List (List (Option String))) : List LineItem :=
  parse_rows (doc_is_dohle d) d.bestelldatum d.bestellnummer (clean_rows tbl)

/-- Stem of a file name as computed by os.path.splitext: everything before
the last dot, except that a dot with only dots before it starts no
extension. -/
def stemChars (l : List Char) : List Char :=
  let rev := l.reverse
  let post := rev.takeWhile (fun c => c != '.')
  if post.length = rev.length then l
  else
    let pre := rev.drop (post.length + 1)
    if pre.any (fun c => c != '.') then pre.reverse else l

/-- Output artifact name (line 386): stem of the input base name plus the
csv extension. -/
def output_filename (fname : String) : String :=
  String.mk (stemChars fname.toList) ++ ".csv"

/-- process_single_pdf.  Except.error () models an exception escaping to
the caller; Except.ok (ret, rows) pairs the returned value (the final CSV
path on success, none on an internal rejection) with the rows written to
the temporary CSV file ([] when that file was never written). -/
def process_single_pdf (d : PdfDoc) :
    Except Unit (Option String × List (List String)) :=
  if !d.readable then Except.ok (none, [])
  else if !doc_is_dohle d && doc_kennwort d == "" then Except.ok (none, [])
  else
    match d.tables with
    | none => Except.ok (none, [])
    | some tbl =>
      if (clean_rows tbl).isEmpty then Except.ok (none, [])
      else if (doc_items d tbl).isEmpty then Except.ok (none, [])
      else if !d.writeOk then Except.error ()
      else if d.copyOk then
        Except.ok (some (output_filename d.filename),
          emit_csv (doc_kennwort d) d.bestelldatum d.bestellnummer d.lieferdatum
            (doc_items d tbl))
      else
        Except.ok (none,
          emit_csv (doc_kennwort d) d.bestelldatum d.bestellnummer d.lieferdatum
            (doc_items d tbl))

/- ------------------------------------------------------------------
   Sample documents used by witnesses and counterexamples
   ------------------------------------------------------------------ -/

/-- A well-formed EDEKA document: delimiter row, then one article row. -/
def sampleEdekaDoc : PdfDoc :=
  { filename := "Bestellung Muster.pdf"
    readable := true
    bestellnummer := "4500123456"
    bestelldatum := "01.01.2025"
    lieferdatum := ""
    addressBlock := some "EDEKA An der Schäferwiese 5\n81241 München"
    dohleKennwort := ""
    tables := some [[some "_____", some "_____"], [some "100", some "2,5"]]
    writeOk := true
    copyOk := true }

/-- A well-formed Dohle (AEZ) document with one article row. -/
def sampleDohleDoc : PdfDoc :=
  { filename := "AEZ Bestellung.pdf"
    readable := true
    bestellnummer := "777"
    bestelldatum := "02.01.2025"
    lieferdatum := "03.01.2025"
    addressBlock := none
    dohleKennwort := "DohlePasswortIsartal"
    tables := some [[some "x", none, none, none, some "555", none, none, some "3"]]
    writeOk := true
    copyOk := true }

/-- The EDEKA sample with a failing temporary-CSV write. -/
def sampleWriteFailDoc : PdfDoc := { sampleEdekaDoc with writeOk := false }

/-- An EDEKA document whose address block matches no market keyword. -/
def sampleNoKwDoc : PdfDoc :=
  { filename := "Bestellung Unbekannt.pdf"
    readable := true
    bestellnummer := "1"
    bestelldatum := "01.01.2025"
    lieferdatum := ""
    addressBlock := some "EDEKA Irgendwo 1"
    dohleKennwort := ""
    tables := some [[some "100", some "2"]]
    writeOk := true
    copyOk := true }

/-- The EDEKA sample with an empty extracted table. -/
def sampleEmptyTableDoc : PdfDoc := { sampleEdekaDoc with tables := some [] }

/-- The EDEKA sample with rows none of which yields a line item. -/
def sampleNoItemsDoc : PdfDoc :=
  { sampleEdekaDoc with tables := some [[some "abc", some "x"]] }

/- ------------------------------------------------------------------
   Helper lemmas
   ------------------------------------------------------------------ -/

/-- find? returns the entry at index n when it satisfies the test and all
earlier entries fail it. -/
theorem find?_first {α : Type _} (p : α → Bool) :
    ∀ (l : List α) (n : Nat) (x : α), l[n]? = some x → p x = true →
      (∀ m y, m < n → l[m]? = some y → p y = false) → l.find? p = some x := by
  intro l
  induction l with
  | nil => intro n x h _ _; simp at h
  | cons a t ih =>
    intro n x hget hp hmin
    cases n with
    | zero =>
      simp at hget
      subst hget
      exact List.find?_cons_of_pos t hp
    | succ n =>
      have ha : p a = false := hmin 0 a (Nat.succ_pos n) (by simp)
      rw [List.find?_cons_of_neg t (by simp [ha])]
      exact ih n x (by simpa using hget) hp
        (fun m y hm hg => hmin (m + 1) y (Nat.succ_lt_succ hm) (by simpa using hg))

/-- getD of an index inside the list is a member of the list. -/
theorem getD_mem {α : Type _} (l : List α) (i : Nat) (d : α) (h : i < l.length) :
    l.getD i d ∈ l := by
  rw [List.getD_eq_getElem?_getD, List.getElem?_eq_getElem h]
  exact List.getElem_mem h

/-- getD past the end of the list is the default. -/
theorem getD_past_end {α : Type _} (l : List α) (i : Nat) (d : α) (h : ¬i < l.length) :
    l.getD i d = d := by
  rw [List.getD_eq_getElem?_getD, List.getElem?_eq_none (by omega)]
  rfl

/-- In a row whose cells all strip to nothing, every cell read at any
index fails the digit test. -/
theorem empty_cell_no_digit (row : List String) (h : row_empty row = true) (i : Nat) :
    isDigitsNE (strTrim (row.getD i "")) = false := by
  by_cases hi : i < row.length
  · have hm := getD_mem row i "" hi
    have hc := (List.all_eq_true.mp h) _ hm
    have he : strTrim (row.getD i "") = "" := by simpa using hc
    rw [he]
    decide
  · rw [getD_past_end row i "" hi]
    decide

/-- In a delimiter row, every cell read at any index fails the digit
test: it strips to nothing or starts with an underscore. -/
theorem underscore_cell_no_digit (row : List String) (h : row_underscore row = true) (i : Nat) :
    isDigitsNE (strTrim (row.getD i "")) = false := by
  by_cases hi : i < row.length
  · have hm := getD_mem row i "" hi
    have hc := (List.all_eq_true.mp h) _ hm
    rcases (Bool.or_eq_true _ _).mp hc with h1 | h1
    · have he : strTrim (row.getD i "") = "" := by simpa using h1
      rw [he]
      decide
    · unfold firstCharIs at h1
      cases e : (strTrim (row.getD i "")).toList with
      | nil => rw [e] at h1; simp at h1
      | cons a as =>
        rw [e] at h1
        have ha : a = '_' := by simpa using h1
        have hnd : Char.isDigit '_' = false := by decide
        unfold isDigitsNE
        rw [e, ha]
        simp [hnd]
  · rw [getD_past_end row i "" hi]
    decide

/-- The article cell of a stripped-empty row fails the digit test. -/
theorem artCell_no_digit_of_empty (v : Bool) (row : List String)
    (he : row_empty row = true) : isDigitsNE (strTrim (artCell v row)) = false := by
  cases v
  · simpa [artCell] using empty_cell_no_digit row he 0
  · simpa [artCell] using empty_cell_no_digit row he 4

/-- The article cell of a delimiter row fails the digit test. -/
theorem artCell_no_digit_of_underscore (v : Bool) (row : List String)
    (hu : row_underscore row = true) : isDigitsNE (strTrim (artCell v row)) = false := by
  cases v
  · simpa [artCell] using underscore_cell_no_digit row hu 0
  · simpa [artCell] using underscore_cell_no_digit row hu 4

/-- Characterization of a successful per-row parse. -/
theorem line_item_some_elim (v : Bool) (bd bn : String) (row : List String) (it : LineItem)
    (h : line_item v bd bn row = some it) :
    isDigitsNE (strTrim (artCell v row)) = true ∧ bd ≠ "" ∧ bn ≠ "" ∧
      ∃ q, parseQty (qtyCell v row) = some q ∧ 0 < qnum q ∧
        it = ⟨strTrim (artCell v row), q⟩ := by
  unfold line_item at h
  by_cases hd : isDigitsNE (strTrim (artCell v row)) = true
  · rw [if_pos hd] at h
    cases hq : parseQty (qtyCell v row) with
    | none => rw [hq] at h; exact absurd h (by simp)
    | some q =>
      rw [hq, Option.some_bind] at h
      by_cases hc : (bd != "" && bn != "" && decide (0 < qnum q)) = true
      · rw [if_pos hc] at h
        obtain ⟨⟨h1, h2⟩, h3⟩ : (bd ≠ "" ∧ bn ≠ "") ∧ 0 < qnum q := by
          simpa [Bool.and_eq_true, bne_iff_ne, decide_eq_true_eq] using hc
        refine ⟨hd, h1, h2, q, rfl, h3, ?_⟩
        have := Option.some.inj h
        exact this.symm
      · rw [if_neg hc] at h
        exact absurd h (by simp)
  · rw [if_neg hd] at h
    exact absurd h (by simp)

/-- A row in the data-accepting state that passes every check appends
exactly one item: the stripped article cell and the parsed quantity. -/
theorem step_accepts_aux (v : Bool) (bd bn : String) (row : List String)
    (acc : List LineItem) (q : PyDec)
    (hn : row_noise row = false) (hd : isDigitsNE (strTrim (artCell v row)) = true)
    (h1 : bd ≠ "") (h2 : bn ≠ "") (hq : parseQty (qtyCell v row) = some q)
    (h3 : 0 < qnum q) :
    step v bd bn (true, acc) row = (true, acc ++ [⟨strTrim (artCell v row), q⟩]) := by
  have he : row_empty row = false := by
    cases hre : row_empty row
    · rfl
    · exact absurd (artCell_no_digit_of_empty v row hre) (by simp [hd])
  have hu : row_underscore row = false := by
    cases hru : row_underscore row
    · rfl
    · exact absurd (artCell_no_digit_of_underscore v row hru) (by simp [hd])
  have hli : line_item v bd bn row = some ⟨strTrim (artCell v row), q⟩ := by
    unfold line_item
    rw [if_pos hd, hq, Option.some_bind,
      if_pos (show (bd != "" && bn != "" && decide (0 < qnum q)) = true from by
        rw [Bool.and_eq_true, Bool.and_eq_true]
        exact ⟨⟨bne_iff_ne.mpr h1, bne_iff_ne.mpr h2⟩, decide_eq_true h3⟩)]
  simp [step, he, hu, hn, hli]

/-- A non-empty list one longer than another is not equal to it. -/
theorem append_singleton_ne {α : Type _} (l : List α) (x : α) : l ++ [x] ≠ l := by
  intro hEq
  have := congrArg List.length hEq
  simp at this

/-- Complete branch analysis of process_single_pdf. -/
theorem process_shape (d : PdfDoc) :
    process_single_pdf d = Except.ok (none, [])
    ∨ (∃ tbl, d.tables = some tbl ∧ (doc_items d tbl).isEmpty = false ∧ d.writeOk = false ∧
        process_single_pdf d = Except.error ())
    ∨ (∃ tbl, d.tables = some tbl ∧ (doc_items d tbl).isEmpty = false ∧ d.writeOk = true ∧
        ((d.copyOk = true ∧ process_single_pdf d =
            Except.ok (some (output_filename d.filename),
              emit_csv (doc_kennwort d) d.bestelldatum d.bestellnummer d.lieferdatum
                (doc_items d tbl)))
         ∨ (d.copyOk = false ∧ process_single_pdf d =
            Except.ok (none,
              emit_csv (doc_kennwort d) d.bestelldatum d.bestellnummer d.lieferdatum
                (doc_items d tbl))))) := by
  cases hr : d.readable with
  | false => exact Or.inl (by simp [process_single_pdf, hr])
  | true =>
    cases hk : (!doc_is_dohle d && doc_kennwort d == "") with
    | true => exact Or.inl (by simp [process_single_pdf, hr, hk])
    | false =>
      cases htab : d.tables with
      | none => exact Or.inl (by simp [process_single_pdf, hr, hk, htab])
      | some tbl =>
        cases hce : (clean_rows tbl).isEmpty with
        | true => exact Or.inl (by simp [process_single_pdf, hr, hk, htab, hce])
        | false =>
          cases hie : (doc_items d tbl).isEmpty with
          | true => exact Or.inl (by simp [process_single_pdf, hr, hk, htab, hce, hie])
          | false =>
            cases hw : d.writeOk with
            | false =>
              exact Or.inr (Or.inl ⟨tbl, rfl, hie, rfl,
                by simp [process_single_pdf, hr, hk, htab, hce, hie, hw]⟩)
            | true =>
              cases hc : d.copyOk with
              | true =>
                exact Or.inr (Or.inr ⟨tbl, rfl, hie, rfl, Or.inl ⟨rfl,
                  by simp [process_single_pdf, hr, hk, htab, hce, hie, hw, hc]⟩⟩)
              | false =>
                exact Or.inr (Or.inr ⟨tbl, rfl, hie, rfl, Or.inr ⟨rfl,
                  by simp [process_single_pdf, hr, hk, htab, hce, hie, hw, hc]⟩⟩)

/-- A list with isEmpty false is not the empty list. -/
theorem ne_nil_of_isEmpty_false {α : Type _} (l : List α) (h : l.isEmpty = false) :
    l ≠ [] := by
  cases l with
  | nil => simp at h
  | cons a t => simp

/-- Rejection of a document whose accepted line items come up empty. -/
theorem process_none_of_no_items (d : PdfDoc) (tbl : List (List (Option String)))
    (htab : d.tables = some tbl) (hni : doc_items d tbl = []) :
    process_single_pdf d = Except.ok (none, []) := by
  cases hr : d.readable with
  | false => simp [process_single_pdf, hr]
  | true =>
    cases hk : (!doc_is_dohle d && doc_kennwort d == "") with
    | true => simp [process_single_pdf, hr, hk]
    | false =>
      cases hce : (clean_rows tbl).isEmpty with
      | true => simp [process_single_pdf, hr, hk, htab, hce]
      | false => simp [process_single_pdf, hr, hk, htab, hce, hni]

/-- Every character produced by the ASCII fold is ASCII. -/
theorem asciiFold_ascii (c : Char) :
    (asciiFoldChar c).all (fun x => decide (x.toNat < 128)) = true := by
  unfold asciiFoldChar
  by_cases h : c.toNat < 128
  · simp [h]
  · rw [if_neg h]
    cases hd : decompBase c with
    | none => simp
    | some b =>
      by_cases hb : b.toNat < 128
      · simp [hb]
      · simp [hb]

/-- flatMap preserves an all-predicate that holds of every image. -/
theorem flatMap_all {α β : Type _} (f : α → List β) (P : β → Bool)
    (hf : ∀ a, (f a).all P = true) :
    ∀ l : List α, (l.flatMap f).all P = true := by
  intro l
  induction l with
  | nil => rfl
  | cons a t ih => simp only [List.flatMap_cons, List.all_append]; simp [hf a, ih]

/-- dropWhile preserves an all-predicate. -/
theorem dropWhile_all {α : Type _} (p P : α → Bool) :
    ∀ l : List α, l.all P = true → (l.dropWhile p).all P = true := by
  intro l
  induction l with
  | nil => intro _; rfl
  | cons a t ih =>
    intro h
    rw [List.all_cons, Bool.and_eq_true] at h
    rw [List.dropWhile_cons]
    by_cases hp : p a = true
    · rw [if_pos hp]; exact ih h.2
    · rw [if_neg hp, List.all_cons, Bool.and_eq_true]
      exact ⟨h.1, h.2⟩

/-- The whitespace collapse only produces characters of the input or the
space character. -/
theorem collapseAux_all (P : Char → Bool) (hsp : P ' ' = true) :
    ∀ (l : List Char) (b : Bool), l.all P = true → (collapseAux b l).all P = true := by
  intro l
  induction l with
  | nil => intro b _; rfl
  | cons c cs ih =>
    intro b h
    rw [List.all_cons, Bool.and_eq_true] at h
    unfold collapseAux
    by_cases hw : isPyWs c = true
    · rw [if_pos hw]; exact ih true h.2
    · rw [if_neg hw]
      by_cases hb : b = true
      · rw [if_pos hb, List.all_cons, List.all_cons]
        simp [hsp, h.1, ih false h.2]
      · rw [if_neg hb, List.all_cons]
        simp [h.1, ih false h.2]

/-- Output of clean_text is pure ASCII. -/
theorem clean_text_ascii (s : String) :
    (clean_text (some s)).toList.all (fun c => decide (c.toNat < 128)) = true := by
  have h0 : (clean_text (some s)).toList
      = collapseWsL ((s.toList.flatMap germanFoldChar).flatMap asciiFoldChar) := rfl
  rw [h0]
  unfold collapseWsL
  apply collapseAux_all _ (by decide)
  apply dropWhile_all
  exact flatMap_all asciiFoldChar _ asciiFold_ascii _

/-- getD on a mapped list inside bounds. -/
theorem getD_map_of_lt {α β : Type _} (f : α → β) (l : List α) (i : Nat)
    (h : i < l.length) (d : β) (d2 : α) :
    (l.map f).getD i d = f (l.getD i d2) := by
  rw [List.getD_eq_getElem?_getD, List.getD_eq_getElem?_getD, List.getElem?_map,
    List.getElem?_eq_getElem h]
  rfl

/-- The row of the i-th line item sits at position i + 5 of the emitted
CSV. -/
theorem emit_getD_item (kw bd bn ld : String) (items : List LineItem) (i : Nat)
    (h : i < items.length) :
    (emit_csv kw bd bn ld items).getD (i + 5) [] = item_row (items.getD i defaultItem) := by
  show (items.map item_row).getD i [] = item_row (items.getD i defaultItem)
  exact getD_map_of_lt item_row items i h [] defaultItem

/- ------------------------------------------------------------------
   Claim theorems
   ------------------------------------------------------------------ -/

/-- C5: clean_text maps the German special characters to their digraphs
before general decomposition, decomposes remaining accented characters,
drops characters with no ASCII equivalent, collapses every whitespace run
to one space and trims the ends; it maps None and the empty string to the
empty string, its output is always pure ASCII, and
clean_text "Einsteinstraße" = "Einsteinstrasse". -/
theorem C5_clean_text :
    clean_text none = ""
    ∧ clean_text (some "") = ""
    ∧ (∀ s : String, (clean_text (some s)).toList.all (fun c => decide (c.toNat < 128)) = true)
    ∧ clean_text (some "Einsteinstraße") = "Einsteinstrasse"
    ∧ clean_text (some "ä") = "ae"
    ∧ clean_text (some "ö") = "oe"
    ∧ clean_text (some "ü") = "ue"
    ∧ clean_text (some "Ä") = "AE"
    ∧ clean_text (some "Ö") = "OE"
    ∧ clean_text (some "Ü") = "UE"
    ∧ clean_text (some "ß") = "ss"
    ∧ clean_text (some "ẞ") = "SS"
    ∧ clean_text (some "Crème") = "Creme"
    ∧ clean_text (some "a€b") = "ab"
    ∧ clean_text (some "  a \n\t b  ") = "a b" :=
  ⟨rfl, rfl, clean_text_ascii, by decide, by decide, by decide, by decide, by decide,
   by decide, by decide, by decide, by decide, by decide, by decide, by decide⟩

/-- C6: market resolution scans the keyword table in definition order and
returns the password of the first keyword occurring as a substring of the
normalized upper-cased address block; table order breaks ties; no match
gives the empty string. -/
theorem C6_market_resolution :
    (∀ raw : String,
        (∀ kv ∈ MARKET_PASSWORDS,
          hasSubStr kv.1 (strUpper (clean_text (some raw))) = false) →
        resolve_market raw = "")
    ∧ (∀ (raw : String) (n : Nat) (k pw : String),
        MARKET_PASSWORDS[n]? = some (k, pw) →
        hasSubStr k (strUpper (clean_text (some raw))) = true →
        (∀ m k2 p2, m < n → MARKET_PASSWORDS[m]? = some (k2, p2) →
          hasSubStr k2 (strUpper (clean_text (some raw))) = false) →
        resolve_market raw = pw)
    ∧ resolve_market "Theresienhöhe 4, An der Schäferwiese 2" = "Allee" := by
  refine ⟨?_, ?_, by decide⟩
  · intro raw hall
    have hfind : MARKET_PASSWORDS.find?
        (fun kv => hasSubStr kv.1 (strUpper (clean_text (some raw)))) = none :=
      List.find?_eq_none.mpr (fun x hx => by simp [hall x hx])
    simp [resolve_market, hfind]
  · intro raw n k pw hget hk hmin
    have hfind : MARKET_PASSWORDS.find?
        (fun kv => hasSubStr kv.1 (strUpper (clean_text (some raw)))) = some (k, pw) := by
      refine find?_first _ MARKET_PASSWORDS n (k, pw) hget hk ?_
      intro m y hm hg
      cases y with
      | mk k2 p2 => exact hmin m k2 p2 hm hg
    simp [resolve_market, hfind]

/-- C6 witness: applying the first-match part at the table head resolves
the Schäferwiese address to Allee, and the no-match part rejects an
unknown address. -/
theorem C6_market_resolution_witness :
    resolve_market "An der Schäferwiese" = "Allee"
    ∧ resolve_market "Unbekannte Straße 9" = "" :=
  ⟨C6_market_resolution.2.1 "An der Schäferwiese" 0 "SCHAEFERWIESE" "Allee" (by rfl)
      (by decide) (fun m _ _ hm _ => absurd hm (Nat.not_lt_zero m)),
   C6_market_resolution.1 "Unbekannte Straße 9" (by decide)⟩

/-- C7: a row whose every non-empty cell starts with an underscore never
yields a line item in either variant; only the EDEKA variant transitions
on such a row from the before-data state to the data-accepting state (and
only on such a row); the Dohle variant starts in the data-accepting state
and never changes state; before the delimiter every EDEKA row is
dropped. -/
theorem C7_delimiter_rows :
    (∀ (v : Bool) (bd bn : String) (st : Bool × List LineItem) (row : List String),
        row_underscore row = true → (step v bd bn st row).2 = st.2)
    ∧ (∀ (bd bn : String) (acc : List LineItem) (row : List String),
        row_empty row = false → row_underscore row = true →
        (step false bd bn (false, acc) row).1 = true)
    ∧ (∀ (bd bn : String) (st : Bool × List LineItem) (row : List String),
        (step true bd bn st row).1 = st.1)
    ∧ (∀ (bd bn : String) (acc : List LineItem) (row : List String),
        row_underscore row = false → step false bd bn (false, acc) row = (false, acc))
    ∧ (∀ (bd bn : String) (rows : List (List String)),
        parse_rows true bd bn rows = (rows.foldl (step true bd bn) (true, [])).2) := by
  refine ⟨?_, ?_, ?_, ?_, ?_⟩
  · intro v bd bn st row hu
    cases he : row_empty row with
    | true => simp [step, he]
    | false =>
      cases v with
      | false => simp [step, he, hu]
      | true =>
        have hd := artCell_no_digit_of_underscore true row hu
        have hli : line_item true bd bn row = none := by
          unfold line_item
          rw [if_neg (by simp [hd])]
        cases hn : row_noise row with
        | true => simp [step, he, hn]
        | false => simp [step, he, hn, hli]
  · intro bd bn acc row he hu
    simp [step, he, hu]
  · intro bd bn st row
    cases he : row_empty row with
    | true => simp [step, he]
    | false =>
      cases hn : row_noise row with
      | true => simp [step, he, hn]
      | false =>
        cases hli : line_item true bd bn row with
        | none => simp [step, he, hn, hli]
        | some it => simp [step, he, hn, hli]
  · intro bd bn acc row hu
    cases he : row_empty row with
    | true => simp [step, he]
    | false => simp [step, he, hu]
  · intro bd bn rows
    rfl

/-- C7 witness: a concrete delimiter row adds no item and flips the EDEKA
state; a concrete header row is dropped before the delimiter. -/
theorem C7_delimiter_rows_witness :
    (step false "01.01.2025" "9" (false, []) ["____", "", "__"]).2 = []
    ∧ (step false "01.01.2025" "9" (false, []) ["____", "", "__"]).1 = true
    ∧ step false "01.01.2025" "9" (false, []) ["Artikel", "Menge"] = (false, []) :=
  ⟨C7_delimiter_rows.1 false "01.01.2025" "9" (false, []) ["____", "", "__"] (by decide),
   C7_delimiter_rows.2.1 "01.01.2025" "9" [] ["____", "", "__"] (by decide) (by decide),
   C7_delimiter_rows.2.2.2.1 "01.01.2025" "9" [] ["Artikel", "Menge"] (by decide)⟩

/-- C2 counterexample: the row ["123", "2,5", "Summe"] satisfies every
acceptance condition listed by the claim (digit article cell, positive
parsable quantity, order date and order number present) while the loop, in
the data-accepting state, yields no line item for it, because its joined
upper-cased text contains the noise marker SUMME. -/
theorem C2_row_acceptance_cex :
    isDigitsNE (strTrim (artCell false ["123", "2,5", "Summe"])) = true
    ∧ parseQty (qtyCell false ["123", "2,5", "Summe"]) = some ⟨false, ['2'], ['5']⟩
    ∧ 0 < qnum ⟨false, ['2'], ['5']⟩
    ∧ ("01.01.2025" : String) ≠ ""
    ∧ ("123" : String) ≠ ""
    ∧ (step false "01.01.2025" "123" (true, []) ["123", "2,5", "Summe"]).2 = [] :=
  ⟨by decide, by decide, by decide, by decide, by decide, by decide⟩

/-- C2 (amended): a row processed in the data-accepting state yields a
line item exactly when, in addition to the conditions of the claim, its
joined upper-cased text contains none of the noise markers; the accepted
item carries the stripped article cell unchanged and the parsed quantity.
The concrete conjuncts check the boundary cases: quantity 0,00 is
rejected, article 12A3 is rejected, article 0012 is accepted as is. -/
theorem C2_row_acceptance :
    (∀ (v : Bool) (bd bn : String) (row : List String) (acc : List LineItem),
        ((step v bd bn (true, acc) row).2 ≠ acc ↔
          (row_noise row = false ∧ isDigitsNE (strTrim (artCell v row)) = true ∧
            bd ≠ "" ∧ bn ≠ "" ∧
            ∃ q, parseQty (qtyCell v row) = some q ∧ 0 < qnum q)))
    ∧ (∀ (v : Bool) (bd bn : String) (row : List String) (acc : List LineItem) (q : PyDec),
        row_noise row = false → isDigitsNE (strTrim (artCell v row)) = true →
        bd ≠ "" → bn ≠ "" → parseQty (qtyCell v row) = some q → 0 < qnum q →
        (step v bd bn (true, acc) row).2 = acc ++ [⟨strTrim (artCell v row), q⟩])
    ∧ (step false "01.01.2025" "123" (true, []) ["0012", "0,00"]).2 = []
    ∧ (step false "01.01.2025" "123" (true, []) ["12A3", "2,5"]).2 = []
    ∧ (step false "01.01.2025" "123" (true, []) ["0012", "2,5"]).2
        = [⟨"0012", ⟨false, ['2'], ['5']⟩⟩] := by
  refine ⟨?_, ?_, by decide, by decide, by decide⟩
  · intro v bd bn row acc
    constructor
    · intro hne
      cases he : row_empty row with
      | true => exact absurd (by simp [step, he]) hne
      | false =>
        cases hu : (!v && row_underscore row) with
        | true => exact absurd (by simp [step, he, hu]) hne
        | false =>
          cases hn : row_noise row with
          | true => exact absurd (by simp [step, he, hu, hn]) hne
          | false =>
            cases hli : line_item v bd bn row with
            | none => exact absurd (by simp [step, he, hu, hn, hli]) hne
            | some it =>
              obtain ⟨hd, h1, h2, q, hq, h3, _⟩ := line_item_some_elim v bd bn row it hli
              exact ⟨rfl, hd, h1, h2, q, hq, h3⟩
    · rintro ⟨hn, hd, h1, h2, q, hq, h3⟩
      rw [step_accepts_aux v bd bn row acc q hn hd h1 h2 hq h3]
      exact append_singleton_ne acc _
  · intro v bd bn row acc q hn hd h1 h2 hq h3
    rw [step_accepts_aux v bd bn row acc q hn hd h1 h2 hq h3]

/-- C2 witness: the acceptance direction applied at the concrete accepted
row. -/
theorem C2_row_acceptance_witness :
    (step false "01.01.2025" "123" (true, []) ["0012", "2,5"]).2
      = [] ++ [⟨strTrim (artCell false ["0012", "2,5"]), ⟨false, ['2'], ['5']⟩⟩] :=
  C2_row_acceptance.2.1 false "01.01.2025" "123" ["0012", "2,5"] [] ⟨false, ['2'], ['5']⟩
    (by decide) (by decide) (by decide) (by decide) (by decide) (by decide)

/-- C1: the emitted CSV consists of exactly 5 + n rows of 15 cells each:
password row (15th column), empty row, order date, order number, delivery
date (3rd column each), then one row per accepted line item in table-scan
order with the article number in the 2nd column and the comma-formatted
quantity in the 5th, with no trailing summary row; every successful run of
process_single_pdf writes exactly this CSV; the emitted rows match the
specified concrete example. -/
theorem C1_csv_structure :
    (∀ (kw bd bn ld : String) (items : List LineItem),
        (emit_csv kw bd bn ld items).length = 5 + items.length
        ∧ (∀ r ∈ emit_csv kw bd bn ld items, r.length = 15)
        ∧ (emit_csv kw bd bn ld items).getD 0 [] = setCell 14 kw
        ∧ (emit_csv kw bd bn ld items).getD 1 [] = blank15
        ∧ (emit_csv kw bd bn ld items).getD 2 [] = setCell 2 bd
        ∧ (emit_csv kw bd bn ld items).getD 3 [] = setCell 2 bn
        ∧ (emit_csv kw bd bn ld items).getD 4 [] = setCell 2 ld
        ∧ (∀ i, i < items.length →
            (emit_csv kw bd bn ld items).getD (i + 5) []
              = item_row (items.getD i defaultItem)))
    ∧ (∀ kw, setCell 14 kw = ["", "", "", "", "", "", "", "", "", "", "", "", "", "", kw])
    ∧ (∀ x, setCell 2 x = ["", "", x, "", "", "", "", "", "", "", "", "", "", "", ""])
    ∧ (∀ it, item_row it
        = ["", it.art, "", "", mapChar '.' ',' (renderQty it.qty),
           "", "", "", "", "", "", "", "", "", ""])
    ∧ (∀ (d : PdfDoc) (name : String) (rows : List (List String)),
        process_single_pdf d = Except.ok (some name, rows) →
        ∃ tbl, d.tables = some tbl ∧
          rows = emit_csv (doc_kennwort d) d.bestelldatum d.bestellnummer d.lieferdatum
            (doc_items d tbl))
    ∧ emit_csv "Allee" "01.01.2025" "123" "" [⟨"100", ⟨false, ['2'], ['5']⟩⟩]
        = [setCell 14 "Allee", blank15, setCell 2 "01.01.2025", setCell 2 "123", setCell 2 "",
           item_row ⟨"100", ⟨false, ['2'], ['5']⟩⟩]
    ∧ csv_line (item_row ⟨"100", ⟨false, ['2'], ['5']⟩⟩) = ";100;;;2,5;;;;;;;;;;" := by
  refine ⟨?_, fun kw => rfl, fun x => rfl, fun it => rfl, ?_, rfl, by decide⟩
  · intro kw bd bn ld items
    refine ⟨?_, ?_, rfl, rfl, rfl, rfl, rfl, fun i h => emit_getD_item kw bd bn ld items i h⟩
    · simp [emit_csv]
      omega
    · intro r hr
      rw [emit_csv, List.mem_append] at hr
      rcases hr with hr | hr
      · simp only [List.mem_cons, List.mem_singleton] at hr
        rcases hr with rfl | rfl | rfl | rfl | rfl | hr
        · simp [setCell, blank15]
        · simp [blank15]
        · simp [setCell, blank15]
        · simp [setCell, blank15]
        · simp [setCell, blank15]
        · simp at hr
      · rw [List.mem_map] at hr
        obtain ⟨it, _, rfl⟩ := hr
        simp [item_row, blank15]
  · intro d name rows h
    rcases process_shape d with hs | ⟨tbl, htab, hie, hw, hs⟩ | ⟨tbl, htab, hie, hw, hs⟩
    · rw [hs] at h
      simp at h
    · rw [hs] at h
      simp at h
    · rcases hs with ⟨hc, hs⟩ | ⟨hc, hs⟩
      · rw [hs] at h
        refine ⟨tbl, htab, ?_⟩
        have := Except.ok.inj h
        have h2 := (Prod.mk.injEq _ _ _ _).mp this
        exact h2.2.symm
      · rw [hs] at h
        simp at h

/-- C1 witness: the item-row index part and the process connection applied
at concrete inputs. -/
theorem C1_csv_structure_witness :
    ((emit_csv "Allee" "01.01.2025" "123" "" [⟨"100", ⟨false, ['2'], ['5']⟩⟩]).getD (0 + 5) []
      = item_row (([⟨"100", ⟨false, ['2'], ['5']⟩⟩] : List LineItem).getD 0 defaultItem))
    ∧ (∃ tbl, sampleEdekaDoc.tables = some tbl ∧
        emit_csv "Allee" "01.01.2025" "4500123456" "" [⟨"100", ⟨false, ['2'], ['5']⟩⟩]
          = emit_csv (doc_kennwort sampleEdekaDoc) sampleEdekaDoc.bestelldatum
              sampleEdekaDoc.bestellnummer sampleEdekaDoc.lieferdatum
              (doc_items sampleEdekaDoc tbl)) :=
  ⟨(C1_csv_structure.1 "Allee" "01.01.2025" "123" "" [⟨"100", ⟨false, ['2'], ['5']⟩⟩]
      ).2.2.2.2.2.2.2 0 (by decide),
   C1_csv_structure.2.2.2.2.1 sampleEdekaDoc "Bestellung Muster.csv"
     (emit_csv "Allee" "01.01.2025" "4500123456" "" [⟨"100", ⟨false, ['2'], ['5']⟩⟩]) rfl⟩

/-- C3: a document classified to the default EDEKA variant whose address
block resolves no market password is rejected: process_single_pdf returns
None and no output row is written. -/
theorem C3_missing_credential :
    ∀ d : PdfDoc, doc_is_dohle d = false → doc_kennwort d = "" →
      process_single_pdf d = Except.ok (none, []) := by
  intro d h1 h2
  cases hr : d.readable with
  | false => simp [process_single_pdf, hr]
  | true => simp [process_single_pdf, hr, h1, h2]

/-- C3 witness: concrete EDEKA document with an unknown address. -/
theorem C3_missing_credential_witness :
    doc_is_dohle sampleNoKwDoc = false
    ∧ doc_kennwort sampleNoKwDoc = ""
    ∧ process_single_pdf sampleNoKwDoc = Except.ok (none, []) :=
  ⟨by decide, by decide, C3_missing_credential sampleNoKwDoc (by decide) (by decide)⟩

/-- C4: zero extracted rows give a None return with no rows written; raw
rows with no accepted line item give a None return with no rows written;
rows are only ever written when at least one accepted line item exists. -/
theorem C4_fatal_paths :
    (∀ d : PdfDoc, d.tables = some [] → process_single_pdf d = Except.ok (none, []))
    ∧ (∀ (d : PdfDoc) (tbl : List (List (Option String))),
        d.tables = some tbl → doc_items d tbl = [] →
        process_single_pdf d = Except.ok (none, []))
    ∧ (∀ (d : PdfDoc) (r : Option String × List (List String)),
        process_single_pdf d = Except.ok r → r.2 ≠ [] →
        ∃ tbl, d.tables = some tbl ∧ doc_items d tbl ≠ []) := by
  refine ⟨?_, ?_, ?_⟩
  · intro d htab
    exact process_none_of_no_items d [] htab rfl
  · intro d tbl htab hni
    exact process_none_of_no_items d tbl htab hni
  · intro d r h hne
    rcases process_shape d with hs | ⟨tbl, htab, hie, hw, hs⟩ | ⟨tbl, htab, hie, hw, hs⟩
    · rw [hs] at h
      have := Except.ok.inj h
      rw [← this] at hne
      simp at hne
    · rw [hs] at h
      simp at h
    · exact ⟨tbl, htab, ne_nil_of_isEmpty_false _ hie⟩

/-- C4 witness: the three parts applied at concrete documents. -/
theorem C4_fatal_paths_witness :
    process_single_pdf sampleEmptyTableDoc = Except.ok (none, [])
    ∧ process_single_pdf sampleNoItemsDoc = Except.ok (none, [])
    ∧ ∃ tbl, sampleEdekaDoc.tables = some tbl ∧ doc_items sampleEdekaDoc tbl ≠ [] :=
  ⟨C4_fatal_paths.1 sampleEmptyTableDoc rfl,
   C4_fatal_paths.2.1 sampleNoItemsDoc [[some "abc", some "x"]] rfl (by decide),
   C4_fatal_paths.2.2 sampleEdekaDoc
     (some "Bestellung Muster.csv",
       emit_csv "Allee" "01.01.2025" "4500123456" "" [⟨"100", ⟨false, ['2'], ['5']⟩⟩])
     rfl (by decide)⟩

/-- C8 counterexample: for a valid document whose temporary-CSV write
raises, the exception escapes process_single_pdf (the write block at
lines 391-426 is not inside a try/except), contradicting the claim that
every write error is converted to a None return. -/
theorem C8_exception_policy_cex :
    process_single_pdf sampleWriteFailDoc = Except.error () := rfl

/-- C8 (amended): no exception escapes process_single_pdf except one
raised while creating or writing the temporary CSV file; unreadable or
encrypted PDFs, table-extraction failures, missing credentials, missing
line items and copy/delete errors are all converted to a None return. -/
theorem C8_exception_policy :
    (∀ d : PdfDoc, d.writeOk = true → ∃ r, process_single_pdf d = Except.ok r)
    ∧ (∀ d : PdfDoc, process_single_pdf d = Except.error () → d.writeOk = false) := by
  constructor
  · intro d hw
    rcases process_shape d with hs | ⟨tbl, htab, hie, hwf, hs⟩ | ⟨tbl, htab, hie, hwt, hs⟩
    · exact ⟨(none, []), hs⟩
    · rw [hw] at hwf
      exact absurd hwf (by simp)
    · rcases hs with ⟨_, hs⟩ | ⟨_, hs⟩
      · exact ⟨_, hs⟩
      · exact ⟨_, hs⟩
  · intro d h
    rcases process_shape d with hs | ⟨tbl, htab, hie, hwf, hs⟩ | ⟨tbl, htab, hie, hwt, hs⟩
    · rw [hs] at h
      simp at h
    · exact hwf
    · rcases hs with ⟨_, hs⟩ | ⟨_, hs⟩ <;> rw [hs] at h <;> simp at h

/-- C8 witness: a successful write gives an ok result; the escaping run
has a failing write. -/
theorem C8_exception_policy_witness :
    (∃ r, process_single_pdf sampleEdekaDoc = Except.ok r)
    ∧ sampleWriteFailDoc.writeOk = false :=
  ⟨C8_exception_policy.1 sampleEdekaDoc rfl,
   C8_exception_policy.2 sampleWriteFailDoc rfl⟩

/-- C9 counterexample: both variants name the artifact from the input base
name; in particular a successful Dohle run is named AEZ Bestellung.csv and
not by the transliterated order date, so no variant uses the
Bestellformular date naming. -/
theorem C9_output_name_cex :
    (∃ rows, process_single_pdf sampleDohleDoc
        = Except.ok (some "AEZ Bestellung.csv", rows))
    ∧ (∃ rows, process_single_pdf sampleEdekaDoc
        = Except.ok (some "Bestellung Muster.csv", rows))
    ∧ ("AEZ Bestellung.csv" : String) ≠ "Bestellformular 02-01-2025.csv"
    ∧ ("Bestellung Muster.csv" : String) ≠ "Bestellformular 01-01-2025.csv" :=
  ⟨⟨emit_csv "DohlePasswortIsartal" "02.01.2025" "777" "03.01.2025"
      [⟨"555", ⟨false, ['3'], []⟩⟩], rfl⟩,
   ⟨emit_csv "Allee" "01.01.2025" "4500123456" "" [⟨"100", ⟨false, ['2'], ['5']⟩⟩], rfl⟩,
   by decide, by decide⟩

/-- C9 (amended): on every successful conversion, of either variant, the
artifact name is the input base name with its extension replaced by csv;
no variant derives the name from the order date. -/
theorem C9_output_name :
    ∀ (d : PdfDoc) (name : String) (rows : List (List String)),
      process_single_pdf d = Except.ok (some name, rows) →
      name = output_filename d.filename := by
  intro d name rows h
  rcases process_shape d with hs | ⟨tbl, htab, hie, hw, hs⟩ | ⟨tbl, htab, hie, hw, hs⟩
  · rw [hs] at h
    simp at h
  · rw [hs] at h
    simp at h
  · rcases hs with ⟨_, hs⟩ | ⟨_, hs⟩
    · rw [hs] at h
      have := Except.ok.inj h
      have h2 := (Prod.mk.injEq _ _ _ _).mp this
      exact (Option.some.inj h2.1).symm
    · rw [hs] at h
      simp at h

/-- C9 witness: the naming rule applied at the concrete Dohle document. -/
theorem C9_output_name_witness :
    ("AEZ Bestellung.csv" : String) = output_filename sampleDohleDoc.filename :=
  C9_output_name sampleDohleDoc "AEZ Bestellung.csv"
    (emit_csv "DohlePasswortIsartal" "02.01.2025" "777" "03.01.2025"
      [⟨"555", ⟨false, ['3'], []⟩⟩]) rfl

/-- C10: the quantity cell written to the CSV is the decimal rendering of
the parsed value with the period replaced by a comma, not the source
token: the cell 2 parses to the value two and is emitted as 2,0 and the
cell 2,50 is emitted as 2,5 with its trailing zero dropped. -/
theorem C10_quantity_format :
    (∀ it : LineItem, (item_row it).getD 4 "" = mapChar '.' ',' (renderQty it.qty))
    ∧ parseQty "2" = some ⟨false, ['2'], []⟩
    ∧ mapChar '.' ',' (renderQty ⟨false, ['2'], []⟩) = "2,0"
    ∧ parseQty "2,50" = some ⟨false, ['2'], ['5', '0']⟩
    ∧ mapChar '.' ',' (renderQty ⟨false, ['2'], ['5', '0']⟩) = "2,5"
    ∧ ("2,0" : String) ≠ "2"
    ∧ ("2,5" : String) ≠ "2,50"
    ∧ (step false "01.01.2025" "99" (true, []) ["7", "2"]).2 = [⟨"7", ⟨false, ['2'], []⟩⟩]
    ∧ (item_row ⟨"7", ⟨false, ['2'], []⟩⟩).getD 4 "" = "2,0" :=
  ⟨fun it => rfl, by decide, by decide, by decide, by decide, by decide, by decide,
   by decide, by decide⟩
